import Mathlib

/-!
Shallow embedding of the Temo Connect marketplace backend (an Express/Postgres
application in a single server file).  Users and products live in a relational
store; routes are modelled as pure functions from the store, the verified JWT
claims and the request body to a response together with the successor store.
SQL statements are translated to list operations with PostgreSQL semantics
(in particular, an UPDATE row count counts every row matched by the WHERE
clause, whether or not the written value differs from the stored one).
-/

namespace TemoConnect

/-- A row of the `users` table. -/
structure User where
  id : Nat
  name : String
  email : String
  password_hash : String
  role : String
  status : String
  created_at : Nat
deriving Repr, DecidableEq

/-- A row of the `products` table.  `image_url` and `description` are nullable. -/
structure Product where
  id : Nat
  farmer_id : Nat
  name : String
  price : Int
  quantity : Int
  image_url : Option String
  description : Option String
  created_at : Nat
deriving Repr, DecidableEq

/-- The relational store backing the API. -/
structure Store where
  users : List User
  products : List Product
deriving Repr, DecidableEq

/-- The JWT payload produced by `signToken`: `{ id, role, status, name }`. -/
structure Claims where
  id : Nat
  role : String
  status : String
  name : String
deriving Repr, DecidableEq

/-- `signToken` embeds the user's id, role, status and name in the token. -/
def signToken (u : User) : Claims :=
  { id := u.id, role := u.role, status := u.status, name := u.name }

/-- A full `users` row serialised to JSON, as `SELECT *` returns it. -/
def userJson (u : User) : List (String × String) :=
  [("id", toString u.id), ("name", u.name), ("email", u.email),
   ("password_hash", u.password_hash), ("role", u.role), ("status", u.status),
   ("created_at", toString u.created_at)]

/-- The columns of `RETURNING id, name, email, role, status` in the register insert. -/
def returningUserCols (u : User) : List (String × String) :=
  [("id", toString u.id), ("name", u.name), ("email", u.email),
   ("role", u.role), ("status", u.status)]

/-- The rest-spread `const \x7b password_hash, ...safe \x7d = user` in the login
handler: every key except `password_hash` survives. -/
def stripPasswordHash (j : List (String × String)) : List (String × String) :=
  j.filter (fun kv => kv.1 != "password_hash")

/-- JSON response bodies produced by the routes under study. -/
inductive Body where
  | errMsg (error : String)
  | authPayload (user : List (String × String)) (token : Claims)
  | productRows (rs : List (Product × String))
  | productRow (r : Option Product)
  | okTrue
deriving Repr, DecidableEq

/-- An HTTP response: status code plus JSON body. -/
structure Resp where
  code : Nat
  body : Body
deriving Repr, DecidableEq

/-- The keys of the `user` object of an auth success response (empty for
every other body shape). -/
def respUserKeys (r : Resp) : List String :=
  match r.body with
  | Body.authPayload j _ => j.map Prod.fst
  | _ => []

/-- The `requireRole(...roles)` middleware: 403 Forbidden when no verified
claims are attached or the claims' role is not among the allowed roles. -/
def requireRole (roles : List String) (user : Option Claims) : Except Resp Claims :=
  match user with
  | none => Except.error ⟨403, Body.errMsg "Forbidden"⟩
  | some c =>
      if roles.contains c.role then Except.ok c
      else Except.error ⟨403, Body.errMsg "Forbidden"⟩

/-- The `requireApprovedFarmer` middleware: 403 "Farmer only" when the role is
not farmer, then 403 "Farmer not approved by admin yet" when the status is not
approved. -/
def requireApprovedFarmer (c : Claims) : Except Resp Unit :=
  if c.role != "farmer" then Except.error ⟨403, Body.errMsg "Farmer only"⟩
  else if c.status != "approved" then
    Except.error ⟨403, Body.errMsg "Farmer not approved by admin yet"⟩
  else Except.ok ()

/-- JavaScript truthiness of an optional string: absent, null and `""` are falsy. -/
def truthyStr : Option String → Bool
  | none => false
  | some s => s != ""

/-- JavaScript truthiness of an optional number: absent, null and `0` are falsy. -/
def truthyInt : Option Int → Bool
  | none => false
  | some n => n != 0

/-- The `image_url || null` / `description || null` defaulting in the create
handler: an absent or empty string becomes SQL NULL. -/
def orNull : Option String → Option String
  | none => none
  | some s => if s == "" then none else some s

/-- Request body of POST /api/auth/register; `none` models an absent field. -/
structure RegisterBody where
  name : Option String
  email : Option String
  password : Option String
  role : Option String
deriving Repr, DecidableEq

/-- POST /api/auth/register.  `hashFn` abstracts `bcrypt.hash`; `freshId` and
`now` abstract the id sequence and the `created_at` default of the insert. -/
def register (hashFn : String → String) (st : Store) (freshId now : Nat)
    (b : RegisterBody) : Resp × Store :=
  if !(truthyStr b.name) || !(truthyStr b.email)
      || !(truthyStr b.password) || !(truthyStr b.role) then
    (⟨400, Body.errMsg "Missing fields"⟩, st)
  else if !(["consumer", "farmer"].contains (b.role.getD "")) then
    (⟨400, Body.errMsg "Invalid role"⟩, st)
  else if !(st.users.filter (fun u => u.email == b.email.getD "")).isEmpty then
    (⟨409, Body.errMsg "Email already registered"⟩, st)
  else
    let role := b.role.getD ""
    let status := if role == "farmer" then "pending" else "approved"
    let newUser : User :=
      { id := freshId, name := b.name.getD "", email := b.email.getD "",
        password_hash := hashFn (b.password.getD ""), role := role,
        status := status, created_at := now }
    (⟨201, Body.authPayload (returningUserCols newUser) (signToken newUser)⟩,
     { st with users := st.users ++ [newUser] })

/-- POST /api/auth/login.  `checkPw` abstracts `bcrypt.compare`.  The store is
never mutated, so only the response is returned. -/
def login (checkPw : String → String → Bool) (st : Store)
    (email password : String) : Resp :=
  match st.users.filter (fun u => u.email == email) with
  | [] => ⟨401, Body.errMsg "Invalid credentials"⟩
  | user :: _ =>
      if !(checkPw password user.password_hash) then
        ⟨401, Body.errMsg "Invalid credentials"⟩
      else
        ⟨200, Body.authPayload (stripPasswordHash (userJson user)) (signToken user)⟩

/-- The join of the public listing query: each product paired with the name of
every user matching `u.id = p.farmer_id AND u.role='farmer' AND u.status='approved'`. -/
def joinApproved (st : Store) : List (Product × String) :=
  st.products.flatMap (fun p =>
    (st.users.filter (fun u =>
        u.id == p.farmer_id && u.role == "farmer" && u.status == "approved")).map
      (fun u => (p, u.name)))

/-- GET /api/products: the join above, `ORDER BY p.created_at DESC`. -/
def listPublic (st : Store) : List (Product × String) :=
  (joinApproved st).mergeSort (fun a b => decide (b.1.created_at ≤ a.1.created_at))

/-- Request body of the product create/update routes; `none` models an absent
or null field. -/
structure ProductBody where
  name : Option String
  price : Option Int
  quantity : Option Int
  image_url : Option String
  description : Option String
deriving Repr, DecidableEq

/-- POST /api/products after `auth`: runs `requireApprovedFarmer`, then the
truthy-style required check on name, price and quantity, then inserts the row
owned by the claims' id. -/
def createProduct (st : Store) (c : Claims) (freshId now : Nat)
    (b : ProductBody) : Resp × Store :=
  match requireApprovedFarmer c with
  | Except.error e => (e, st)
  | Except.ok _ =>
      if !(truthyStr b.name) || !(truthyInt b.price) || !(truthyInt b.quantity) then
        (⟨400, Body.errMsg "name, price, quantity are required"⟩, st)
      else
        let p : Product :=
          { id := freshId, farmer_id := c.id, name := b.name.getD "",
            price := b.price.getD 0, quantity := b.quantity.getD 0,
            image_url := orNull b.image_url, description := orNull b.description,
            created_at := now }
        (⟨201, Body.productRow (some p)⟩, { st with products := st.products ++ [p] })

/-- The `SET x = COALESCE($i, x)` clauses of the update statement: a provided
field replaces the stored value, an absent (null) one keeps it. -/
def applyCoalesce (b : ProductBody) (p : Product) : Product :=
  { p with
    name := b.name.getD p.name,
    price := b.price.getD p.price,
    quantity := b.quantity.getD p.quantity,
    image_url := match b.image_url with | some s => some s | none => p.image_url,
    description := match b.description with | some s => some s | none => p.description }

/-- PUT /api/products/:id after `auth`: `requireApprovedFarmer`, then the
ownership check `SELECT id FROM products WHERE id=$1 AND farmer_id=$2`, then
the COALESCE update `WHERE id=$6` with `RETURNING *`. -/
def updateProduct (st : Store) (c : Claims) (pid : Nat)
    (b : ProductBody) : Resp × Store :=
  match requireApprovedFarmer c with
  | Except.error e => (e, st)
  | Except.ok _ =>
      if (st.products.filter (fun p => p.id == pid && p.farmer_id == c.id)).isEmpty then
        (⟨404, Body.errMsg "Product not found"⟩, st)
      else
        let products' := st.products.map
          (fun p => if p.id == pid then applyCoalesce b p else p)
        (⟨200, Body.productRow (products'.find? (fun p => p.id == pid))⟩,
         { st with products := products' })

/-- DELETE /api/products/:id after `auth`: `requireApprovedFarmer`, then
`DELETE FROM products WHERE id=$1 AND farmer_id=$2`, 404 when the row count
is zero. -/
def deleteProduct (st : Store) (c : Claims) (pid : Nat) : Resp × Store :=
  match requireApprovedFarmer c with
  | Except.error e => (e, st)
  | Except.ok _ =>
      let rowCount :=
        (st.products.filter (fun p => p.id == pid && p.farmer_id == c.id)).length
      if rowCount == 0 then (⟨404, Body.errMsg "Product not found"⟩, st)
      else
        (⟨200, Body.okTrue⟩,
         { st with products :=
            st.products.filter (fun p => !(p.id == pid && p.farmer_id == c.id)) })

/-- PATCH /api/admin/farmers/:id/approve after `auth`: `requireRole("admin")`,
then `UPDATE users SET status='approved' WHERE id=$1 AND role='farmer'`.  The
PostgreSQL row count counts every matched row, already approved or not. -/
def approveFarmer (st : Store) (user : Option Claims) (fid : Nat) : Resp × Store :=
  match requireRole ["admin"] user with
  | Except.error e => (e, st)
  | Except.ok _ =>
      let rowCount :=
        (st.users.filter (fun u => u.id == fid && u.role == "farmer")).length
      if rowCount == 0 then
        (⟨404, Body.errMsg "Farmer not found or already approved"⟩, st)
      else
        (⟨200, Body.okTrue⟩,
         { st with users := st.users.map (fun u =>
            if u.id == fid && u.role == "farmer" then { u with status := "approved" }
            else u) })

/-! Theorems -/

/-- Claim C10: the `requireRole` guard is total in the claims: whenever no
verified claims object is attached, or the claims' role is not among the
allowed roles, it responds 403 Forbidden; and it only passes control onward
with claims whose role is in the allowed set. -/
theorem requireRole_total (roles : List String) (u : Option Claims) :
    ((u = none ∨ ∃ c, u = some c ∧ c.role ∉ roles) →
      requireRole roles u = Except.error ⟨403, Body.errMsg "Forbidden"⟩) ∧
    (∀ c, requireRole roles u = Except.ok c → u = some c ∧ c.role ∈ roles) := by
  constructor
  · rintro (rfl | ⟨c, rfl, hc⟩)
    · rfl
    · simp [requireRole, hc]
  · intro c h
    cases u with
    | none => simp [requireRole] at h
    | some c' =>
        by_cases hc : c'.role ∈ roles
        · simp [requireRole, hc] at h
          cases h
          exact ⟨rfl, hc⟩
        · simp [requireRole, hc] at h

/-- Witness for C10 at a concrete non-admin claims object. -/
theorem requireRole_total_witness :
    requireRole ["admin"] (some ⟨1, "farmer", "approved", "Ann"⟩) =
      Except.error ⟨403, Body.errMsg "Forbidden"⟩ :=
  (requireRole_total ["admin"] (some ⟨1, "farmer", "approved", "Ann"⟩)).1
    (Or.inr ⟨⟨1, "farmer", "approved", "Ann"⟩, rfl, by decide⟩)

/-- Claim C1: every POST/PUT/DELETE product route, reached with valid claims
of a pending (more generally un-approved) farmer, returns 403 with the
distinct "not approved" message and leaves the store untouched; the guard is
two-stage, a non-farmer role drawing 403 "Farmer only" instead. -/
theorem pendingFarmer_rejected (st : Store) (c : Claims) (b : ProductBody)
    (pid freshId now : Nat) :
    (c.role = "farmer" → c.status ≠ "approved" →
      createProduct st c freshId now b =
        (⟨403, Body.errMsg "Farmer not approved by admin yet"⟩, st) ∧
      updateProduct st c pid b =
        (⟨403, Body.errMsg "Farmer not approved by admin yet"⟩, st) ∧
      deleteProduct st c pid =
        (⟨403, Body.errMsg "Farmer not approved by admin yet"⟩, st)) ∧
    (c.role ≠ "farmer" →
      createProduct st c freshId now b = (⟨403, Body.errMsg "Farmer only"⟩, st) ∧
      updateProduct st c pid b = (⟨403, Body.errMsg "Farmer only"⟩, st) ∧
      deleteProduct st c pid = (⟨403, Body.errMsg "Farmer only"⟩, st)) := by
  constructor
  · intro hrole hstatus
    have hg : requireApprovedFarmer c =
        Except.error ⟨403, Body.errMsg "Farmer not approved by admin yet"⟩ := by
      simp [requireApprovedFarmer, hrole, hstatus]
    exact ⟨by simp [createProduct, hg], by simp [updateProduct, hg],
           by simp [deleteProduct, hg]⟩
  · intro hrole
    have hg : requireApprovedFarmer c =
        Except.error ⟨403, Body.errMsg "Farmer only"⟩ := by
      simp [requireApprovedFarmer, hrole]
    exact ⟨by simp [createProduct, hg], by simp [updateProduct, hg],
           by simp [deleteProduct, hg]⟩

/-- Witness for C1 at a concrete pending farmer and empty store. -/
theorem pendingFarmer_rejected_witness :
    createProduct ⟨[], []⟩ ⟨1, "farmer", "pending", "Ann"⟩ 1 0
        ⟨some "Eggs", some 5, some 2, none, none⟩ =
      (⟨403, Body.errMsg "Farmer not approved by admin yet"⟩, ⟨[], []⟩) :=
  ((pendingFarmer_rejected ⟨[], []⟩ ⟨1, "farmer", "pending", "Ann"⟩
      ⟨some "Eggs", some 5, some 2, none, none⟩ 1 1 0).1 rfl (by decide)).1

/-- Claim C8: a login with an incorrect password answers 401 "Invalid
credentials", the very same response as when no user with the email exists,
so the two cases are indistinguishable to the caller. -/
theorem login_no_enumeration (checkPw : String → String → Bool) (st : Store)
    (email password : String)
    (h : ∀ u ∈ st.users, u.email = email →
      checkPw password u.password_hash = false) :
    login checkPw st email password = ⟨401, Body.errMsg "Invalid credentials"⟩ := by
  unfold login
  cases hrows : st.users.filter (fun u => u.email == email) with
  | nil => rfl
  | cons user rest =>
      have hu : user ∈ st.users ∧ user.email = email := by
        have hmem : user ∈ st.users.filter (fun u => u.email == email) := by
          rw [hrows]; exact List.mem_cons_self _ _
        simpa [List.mem_filter] using hmem
      simp [h user hu.1 hu.2]

/-- Witness for C8: wrong password on an existing account and a lookup of an
absent email yield the identical 401 response. -/
theorem login_no_enumeration_witness :
    login (fun _ _ => false) ⟨[⟨1, "Ann", "a@x", "h1", "consumer", "approved", 0⟩], []⟩
        "a@x" "guess" = ⟨401, Body.errMsg "Invalid credentials"⟩ ∧
    login (fun _ _ => false) ⟨[⟨1, "Ann", "a@x", "h1", "consumer", "approved", 0⟩], []⟩
        "other@x" "guess" = ⟨401, Body.errMsg "Invalid credentials"⟩ :=
  ⟨login_no_enumeration _ _ _ _ (fun _ _ _ => rfl),
   login_no_enumeration _ _ _ _ (fun u hu he => by
      simp only [List.mem_singleton] at hu
      subst hu
      exact absurd he (by decide))⟩

/-- Claim C9: the auth success payloads never expose the stored
password_hash: the register response user object carries exactly the columns
id, name, email, role, status of the RETURNING clause, and the login response
strips password_hash from the fetched row. -/
theorem auth_no_password_hash (hashFn : String → String)
    (checkPw : String → String → Bool) (st : Store) (freshId now : Nat)
    (b : RegisterBody) (email password : String) :
    "password_hash" ∉ respUserKeys (register hashFn st freshId now b).1 ∧
    "password_hash" ∉ respUserKeys (login checkPw st email password) ∧
    ((register hashFn st freshId now b).1.code = 201 →
      respUserKeys (register hashFn st freshId now b).1 =
        ["id", "name", "email", "role", "status"]) := by
  refine ⟨?_, ?_, ?_⟩
  · unfold register
    split_ifs <;> simp [respUserKeys, returningUserCols]
  · unfold login
    cases st.users.filter (fun u => u.email == email) with
    | nil => simp [respUserKeys]
    | cons user rest =>
        by_cases hc : checkPw password user.password_hash = true
        · simp [hc, respUserKeys, stripPasswordHash, userJson]
        · simp [hc, respUserKeys]
  · intro h
    unfold register at h ⊢
    split_ifs at h ⊢ <;> simp_all [respUserKeys, returningUserCols]

/-- Witness for C9's register clause at a concrete successful registration. -/
theorem auth_no_password_hash_witness :
    respUserKeys (register (fun s => s) ⟨[], []⟩ 1 0
        ⟨some "Ann", some "a@x", some "pw", some "consumer"⟩).1 =
      ["id", "name", "email", "role", "status"] :=
  (auth_no_password_hash (fun s => s) (fun _ _ => false) ⟨[], []⟩ 1 0
      ⟨some "Ann", some "a@x", some "pw", some "consumer"⟩ "" "").2.2 (by decide)

/-- Claim C5: for an authenticated approved farmer, an update or delete on a
product id that either does not exist or is owned by another farmer draws the
one 404 "Product not found" response with the store untouched — the two cases
are indistinguishable, so a farmer cannot probe another farmer's products. -/
theorem notOwned_404 (st : Store) (c : Claims) (pid : Nat) (b : ProductBody)
    (hrole : c.role = "farmer") (hst : c.status = "approved")
    (h : ∀ p ∈ st.products, p.id = pid → p.farmer_id ≠ c.id) :
    updateProduct st c pid b = (⟨404, Body.errMsg "Product not found"⟩, st) ∧
    deleteProduct st c pid = (⟨404, Body.errMsg "Product not found"⟩, st) := by
  have hg : requireApprovedFarmer c = Except.ok () := by
    simp [requireApprovedFarmer, hrole, hst]
  have hfil : st.products.filter (fun p => p.id == pid && p.farmer_id == c.id) = [] := by
    rw [List.filter_eq_nil_iff]
    intro p hp
    simp only [Bool.and_eq_true, beq_iff_eq, not_and]
    exact fun hid => h p hp hid
  exact ⟨by simp [updateProduct, hg, hfil], by simp [deleteProduct, hg, hfil]⟩

/-- Witness for C5: farmer 1 probing product 5 owned by farmer 2 gets the
same 404 as probing the absent product 6. -/
theorem notOwned_404_witness :
    (updateProduct ⟨[], [⟨5, 2, "Eggs", 5, 2, none, none, 0⟩]⟩
        ⟨1, "farmer", "approved", "B"⟩ 5 ⟨none, none, none, none, none⟩ =
      (⟨404, Body.errMsg "Product not found"⟩,
       ⟨[], [⟨5, 2, "Eggs", 5, 2, none, none, 0⟩]⟩) ∧
     deleteProduct ⟨[], [⟨5, 2, "Eggs", 5, 2, none, none, 0⟩]⟩
        ⟨1, "farmer", "approved", "B"⟩ 5 =
      (⟨404, Body.errMsg "Product not found"⟩,
       ⟨[], [⟨5, 2, "Eggs", 5, 2, none, none, 0⟩]⟩)) :=
  notOwned_404 ⟨[], [⟨5, 2, "Eggs", 5, 2, none, none, 0⟩]⟩
    ⟨1, "farmer", "approved", "B"⟩ 5 ⟨none, none, none, none, none⟩
    rfl rfl (by decide)

/-- Claim C7: product creation by an approved farmer fails 400 with
"name, price, quantity are required" whenever name, price or quantity is
absent or falsy — in particular price 0 or quantity 0 — and the store is left
unchanged, so no row is persisted. -/
theorem create_rejects_falsy (st : Store) (c : Claims) (freshId now : Nat)
    (b : ProductBody)
    (hrole : c.role = "farmer") (hst : c.status = "approved")
    (h : b.name = none ∨ b.name = some "" ∨ b.price = none ∨ b.price = some 0 ∨
         b.quantity = none ∨ b.quantity = some 0) :
    createProduct st c freshId now b =
      (⟨400, Body.errMsg "name, price, quantity are required"⟩, st) := by
  have hg : requireApprovedFarmer c = Except.ok () := by
    simp [requireApprovedFarmer, hrole, hst]
  have hcond : (!(truthyStr b.name) || !(truthyInt b.price)
      || !(truthyInt b.quantity)) = true := by
    rcases h with h | h | h | h | h | h <;> simp [h, truthyStr, truthyInt]
  simp [createProduct, hg, hcond]

/-- Witness for C7: a creation with price 0 is rejected as missing and
persists nothing. -/
theorem create_rejects_falsy_witness :
    createProduct ⟨[], []⟩ ⟨1, "farmer", "approved", "Ann"⟩ 1 0
        ⟨some "Eggs", some 0, some 2, none, none⟩ =
      (⟨400, Body.errMsg "name, price, quantity are required"⟩, ⟨[], []⟩) :=
  create_rejects_falsy ⟨[], []⟩ ⟨1, "farmer", "approved", "Ann"⟩ 1 0
    ⟨some "Eggs", some 0, some 2, none, none⟩ rfl rfl
    (Or.inr (Or.inr (Or.inr (Or.inl rfl))))

/-- Claim C4: every successful registration appends exactly one user whose
role came from the request and lies in the open set of consumer and farmer,
with status pending for a farmer and approved for a consumer. -/
theorem register_status_by_role (hashFn : String → String) (st : Store)
    (freshId now : Nat) (b : RegisterBody)
    (h : (register hashFn st freshId now b).1.code = 201) :
    ∃ u : User,
      (register hashFn st freshId now b).2.users = st.users ++ [u] ∧
      some u.role = b.role ∧
      (u.role = "farmer" ∨ u.role = "consumer") ∧
      u.status = (if u.role = "farmer" then "pending" else "approved") := by
  unfold register at h ⊢
  split_ifs at h ⊢ with h1 h2 h3
  · simp at h
  · simp at h
  · simp at h
  · refine ⟨_, rfl, ?_, ?_, ?_⟩
    · cases hb : b.role with
      | none => rw [hb] at h1; simp [truthyStr] at h1
      | some r => simp [hb]
    · have h2' : ¬b.role.getD "" = "consumer" → b.role.getD "" = "farmer" := by
        simpa using h2
      by_cases hc : b.role.getD "" = "consumer"
      · exact Or.inr hc
      · exact Or.inl (h2' hc)
    · by_cases hr : b.role.getD "" = "farmer" <;> simp [hr]

/-- Witness for C4 at a concrete farmer registration into the empty store. -/
theorem register_status_by_role_witness :
    ∃ u : User,
      (register (fun s => s) ⟨[], []⟩ 1 0
          ⟨some "Ann", some "a@x", some "pw", some "farmer"⟩).2.users =
        ([] : List User) ++ [u] ∧
      some u.role = some "farmer" ∧
      (u.role = "farmer" ∨ u.role = "consumer") ∧
      u.status = (if u.role = "farmer" then "pending" else "approved") :=
  register_status_by_role (fun s => s) ⟨[], []⟩ 1 0
    ⟨some "Ann", some "a@x", some "pw", some "farmer"⟩ (by decide)

/-- Claim C6: a successful update by the owning approved farmer replaces
exactly the provided fields, preserves every omitted field, keeps id, owner
and creation time, never resets a set optional field to null, and leaves
every product with a different id untouched. -/
theorem update_merge_semantics (st : Store) (c : Claims) (pid : Nat)
    (b : ProductBody) (p : Product)
    (hrole : c.role = "farmer") (hst : c.status = "approved")
    (hp : p ∈ st.products) (hid : p.id = pid) (hown : p.farmer_id = c.id) :
    (updateProduct st c pid b).1.code = 200 ∧
    (∃ p' ∈ (updateProduct st c pid b).2.products,
      (∀ v, b.name = some v → p'.name = v) ∧
      (b.name = none → p'.name = p.name) ∧
      (∀ v, b.price = some v → p'.price = v) ∧
      (b.price = none → p'.price = p.price) ∧
      (∀ v, b.quantity = some v → p'.quantity = v) ∧
      (b.quantity = none → p'.quantity = p.quantity) ∧
      (∀ v, b.image_url = some v → p'.image_url = some v) ∧
      (b.image_url = none → p'.image_url = p.image_url) ∧
      (∀ v, b.description = some v → p'.description = some v) ∧
      (b.description = none → p'.description = p.description) ∧
      (p.image_url ≠ none → p'.image_url ≠ none) ∧
      (p.description ≠ none → p'.description ≠ none) ∧
      p'.id = p.id ∧ p'.farmer_id = p.farmer_id ∧ p'.created_at = p.created_at) ∧
    (∀ q ∈ st.products, q.id ≠ pid → q ∈ (updateProduct st c pid b).2.products) := by
  have hg : requireApprovedFarmer c = Except.ok () := by
    simp [requireApprovedFarmer, hrole, hst]
  have hne : (st.products.filter
      (fun q => q.id == pid && q.farmer_id == c.id)).isEmpty = false := by
    have hmem : p ∈ st.products.filter (fun q => q.id == pid && q.farmer_id == c.id) := by
      simp [List.mem_filter, hp, hid, hown]
    cases hfil : st.products.filter (fun q => q.id == pid && q.farmer_id == c.id) with
    | nil => rw [hfil] at hmem; cases hmem
    | cons a l => rfl
  have hupd : updateProduct st c pid b =
      (⟨200, Body.productRow ((st.products.map
          (fun q => if q.id == pid then applyCoalesce b q else q)).find?
            (fun q => q.id == pid))⟩,
       ⟨st.users,
        st.products.map (fun q => if q.id == pid then applyCoalesce b q else q)⟩) := by
    simp [updateProduct, hg, hne]
  refine ⟨by rw [hupd], ⟨applyCoalesce b p, ?_, ?_⟩, ?_⟩
  · rw [hupd]
    exact List.mem_map.mpr ⟨p, hp, by simp [hid]⟩
  · refine ⟨fun v hv => by simp [applyCoalesce, hv],
        fun hv => by simp [applyCoalesce, hv],
        fun v hv => by simp [applyCoalesce, hv],
        fun hv => by simp [applyCoalesce, hv],
        fun v hv => by simp [applyCoalesce, hv],
        fun hv => by simp [applyCoalesce, hv],
        fun v hv => by simp [applyCoalesce, hv],
        fun hv => by simp [applyCoalesce, hv],
        fun v hv => by simp [applyCoalesce, hv],
        fun hv => by simp [applyCoalesce, hv],
        fun hv => ?_, fun hv => ?_, rfl, rfl, rfl⟩
    · cases hb : b.image_url with
      | some s => simp [applyCoalesce, hb]
      | none => simpa [applyCoalesce, hb] using hv
    · cases hb : b.description with
      | some s => simp [applyCoalesce, hb]
      | none => simpa [applyCoalesce, hb] using hv
  · intro q hq hqid
    rw [hupd]
    exact List.mem_map.mpr ⟨q, hq, by simp [hqid]⟩

/-- Witness for C6: an update providing only a new price keeps name,
quantity, image and description of the stored row. -/
theorem update_merge_semantics_witness :
    (updateProduct ⟨[], [⟨5, 1, "Eggs", 5, 2, some "u", none, 0⟩]⟩
        ⟨1, "farmer", "approved", "Ann"⟩ 5 ⟨none, some 9, none, none, none⟩).1.code =
      200 ∧
    (∃ p' ∈ (updateProduct ⟨[], [⟨5, 1, "Eggs", 5, 2, some "u", none, 0⟩]⟩
        ⟨1, "farmer", "approved", "Ann"⟩ 5 ⟨none, some 9, none, none, none⟩).2.products,
      (∀ v, (none : Option String) = some v → p'.name = v) ∧
      ((none : Option String) = none → p'.name = "Eggs") ∧
      (∀ v, (some (9 : Int)) = some v → p'.price = v) ∧
      (some (9 : Int) = none → p'.price = 5) ∧
      (∀ v, (none : Option Int) = some v → p'.quantity = v) ∧
      ((none : Option Int) = none → p'.quantity = 2) ∧
      (∀ v, (none : Option String) = some v → p'.image_url = some v) ∧
      ((none : Option String) = none → p'.image_url = some "u") ∧
      (∀ v, (none : Option String) = some v → p'.description = some v) ∧
      ((none : Option String) = none → p'.description = none) ∧
      (some "u" ≠ (none : Option String) → p'.image_url ≠ none) ∧
      ((none : Option String) ≠ none → p'.description ≠ none) ∧
      p'.id = 5 ∧ p'.farmer_id = 1 ∧ p'.created_at = 0) ∧
    (∀ q ∈ ([⟨5, 1, "Eggs", 5, 2, some "u", none, 0⟩] : List Product), q.id ≠ 5 →
      q ∈ (updateProduct ⟨[], [⟨5, 1, "Eggs", 5, 2, some "u", none, 0⟩]⟩
        ⟨1, "farmer", "approved", "Ann"⟩ 5 ⟨none, some 9, none, none, none⟩).2.products) :=
  update_merge_semantics ⟨[], [⟨5, 1, "Eggs", 5, 2, some "u", none, 0⟩]⟩
    ⟨1, "farmer", "approved", "Ann"⟩ 5 ⟨none, some 9, none, none, none⟩
    ⟨5, 1, "Eggs", 5, 2, some "u", none, 0⟩ rfl rfl (by decide) rfl rfl

/-- Claim C3 counterexample: approving the already-approved farmer with id 1
answers 200 ok with the store unchanged, not the 404 the claim requires —
the UPDATE matches the row regardless of its current status, so the row count
is one, not zero. -/
theorem approve_already_approved_returns_ok :
    approveFarmer ⟨[⟨1, "Alice", "alice@x", "h1", "farmer", "approved", 0⟩], []⟩
        (some ⟨9, "admin", "approved", "Root"⟩) 1 =
      (⟨200, Body.okTrue⟩,
       ⟨[⟨1, "Alice", "alice@x", "h1", "farmer", "approved", 0⟩], []⟩) := by
  decide

/-- Claim C3 (amended): an admin call to approve farmer id answers 404 with
"Farmer not found or already approved" exactly when no user with that id and
role farmer exists; when such a user exists — already approved or not — it
answers 200 ok and sets status approved on every matching row, so approving
an already-approved farmer returns 200 with the store unchanged. -/
theorem approveFarmer_amended (st : Store) (c : Claims) (fid : Nat)
    (hadm : c.role = "admin") :
    ((approveFarmer st (some c) fid).1.code = 404 ↔
      ∀ u ∈ st.users, ¬(u.id = fid ∧ u.role = "farmer")) ∧
    ((∃ u ∈ st.users, u.id = fid ∧ u.role = "farmer") →
      (approveFarmer st (some c) fid).1 = ⟨200, Body.okTrue⟩ ∧
      (approveFarmer st (some c) fid).2.users =
        st.users.map (fun u =>
          if u.id = fid ∧ u.role = "farmer" then { u with status := "approved" }
          else u)) ∧
    ((∀ u ∈ st.users, u.id = fid → u.role = "farmer" → u.status = "approved") →
      (∃ u ∈ st.users, u.id = fid ∧ u.role = "farmer") →
      approveFarmer st (some c) fid = ((⟨200, Body.okTrue⟩ : Resp), st)) := by
  have hg : requireRole ["admin"] (some c) = Except.ok c := by
    simp [requireRole, hadm]
  have hmap : ∀ l : List User,
      l.map (fun u => if u.id == fid && u.role == "farmer" then
          { u with status := "approved" } else u) =
      l.map (fun u => if u.id = fid ∧ u.role = "farmer" then
          { u with status := "approved" } else u) := by
    intro l
    refine List.map_congr_left (fun u _ => ?_)
    by_cases hu : u.id = fid ∧ u.role = "farmer"
    · rw [if_pos (by simp [hu.1, hu.2]), if_pos hu]
    · rw [if_neg (by simpa using hu), if_neg hu]
  refine ⟨?_, ?_, ?_⟩
  · cases hfil : st.users.filter (fun u => u.id == fid && u.role == "farmer") with
    | nil =>
        have hnone := List.filter_eq_nil_iff.mp hfil
        simp only [approveFarmer, hg, hfil]
        constructor
        · intro _ u hu
          have := hnone u hu
          simpa using this
        · intro _; rfl
    | cons a l =>
        have ha : a ∈ st.users.filter (fun u => u.id == fid && u.role == "farmer") := by
          rw [hfil]; exact List.mem_cons_self _ _
        rw [List.mem_filter] at ha
        simp only [approveFarmer, hg, hfil]
        constructor
        · intro hcode; cases hcode
        · intro hall
          exact absurd (by simpa using ha.2) (hall a ha.1)
  · rintro ⟨u, hu, huid, hurole⟩
    have hmem : u ∈ st.users.filter (fun x => x.id == fid && x.role == "farmer") := by
      simp [List.mem_filter, hu, huid, hurole]
    cases hfil : st.users.filter (fun x => x.id == fid && x.role == "farmer") with
    | nil => rw [hfil] at hmem; cases hmem
    | cons a l =>
        simp only [approveFarmer, hg, hfil]
        exact ⟨by simp, by simp [hmap st.users]⟩
  · intro happ ⟨u, hu, huid, hurole⟩
    have hmem : u ∈ st.users.filter (fun x => x.id == fid && x.role == "farmer") := by
      simp [List.mem_filter, hu, huid, hurole]
    cases hfil : st.users.filter (fun x => x.id == fid && x.role == "farmer") with
    | nil => rw [hfil] at hmem; cases hmem
    | cons a l =>
        have hid : st.users.map (fun x => if x.id == fid && x.role == "farmer" then
            { x with status := "approved" } else x) = st.users := by
          rw [hmap]
          have : ∀ x ∈ st.users, (if x.id = fid ∧ x.role = "farmer" then
              { x with status := "approved" } else x) = x := by
            intro x hx
            by_cases hxc : x.id = fid ∧ x.role = "farmer"
            · rw [if_pos hxc]
              have hst : x.status = "approved" := happ x hx hxc.1 hxc.2
              cases x
              simp_all
            · rw [if_neg hxc]
          rw [List.map_congr_left this, List.map_id']
        simp only [approveFarmer, hg, hfil]
        cases st
        simp_all

/-- Witness for C3's amended theorem: approving pending farmer 1 flips the
status, approving the result again answers 200 with no change. -/
theorem approveFarmer_amended_witness :
    ((approveFarmer ⟨[⟨1, "Alice", "alice@x", "h1", "farmer", "pending", 0⟩], []⟩
        (some ⟨9, "admin", "approved", "Root"⟩) 1).1.code = 404 ↔
      ∀ u ∈ [(⟨1, "Alice", "alice@x", "h1", "farmer", "pending", 0⟩ : User)],
        ¬(u.id = 1 ∧ u.role = "farmer")) ∧
    ((∃ u ∈ [(⟨1, "Alice", "alice@x", "h1", "farmer", "pending", 0⟩ : User)],
        u.id = 1 ∧ u.role = "farmer") →
      (approveFarmer ⟨[⟨1, "Alice", "alice@x", "h1", "farmer", "pending", 0⟩], []⟩
          (some ⟨9, "admin", "approved", "Root"⟩) 1).1 = ⟨200, Body.okTrue⟩ ∧
      (approveFarmer ⟨[⟨1, "Alice", "alice@x", "h1", "farmer", "pending", 0⟩], []⟩
          (some ⟨9, "admin", "approved", "Root"⟩) 1).2.users =
        [(⟨1, "Alice", "alice@x", "h1", "farmer", "pending", 0⟩ : User)].map
          (fun u => if u.id = 1 ∧ u.role = "farmer" then { u with status := "approved" }
            else u)) ∧
    ((∀ u ∈ [(⟨1, "Alice", "alice@x", "h1", "farmer", "pending", 0⟩ : User)],
        u.id = 1 → u.role = "farmer" → u.status = "approved") →
      (∃ u ∈ [(⟨1, "Alice", "alice@x", "h1", "farmer", "pending", 0⟩ : User)],
        u.id = 1 ∧ u.role = "farmer") →
      approveFarmer ⟨[⟨1, "Alice", "alice@x", "h1", "farmer", "pending", 0⟩], []⟩
          (some ⟨9, "admin", "approved", "Root"⟩) 1 =
        ((⟨200, Body.okTrue⟩ : Resp),
         ⟨[⟨1, "Alice", "alice@x", "h1", "farmer", "pending", 0⟩], []⟩)) :=
  approveFarmer_amended ⟨[⟨1, "Alice", "alice@x", "h1", "farmer", "pending", 0⟩], []⟩
    ⟨9, "admin", "approved", "Root"⟩ 1 rfl

/-- Claim C2: for every store, the public listing holds exactly the pairs of
a stored product with the name of its owning user whose current role is
farmer and current status is approved — a live join against the present
store — and the sequence is ordered by creation time, newest first. -/
theorem listPublic_spec (st : Store) :
    (∀ p fn, (p, fn) ∈ listPublic st ↔
      ∃ u, u ∈ st.users ∧ p ∈ st.products ∧ u.id = p.farmer_id ∧
        u.role = "farmer" ∧ u.status = "approved" ∧ fn = u.name) ∧
    (listPublic st).Pairwise (fun a b => b.1.created_at ≤ a.1.created_at) := by
  constructor
  · intro p fn
    rw [listPublic, List.mem_mergeSort]
    simp only [joinApproved, List.mem_flatMap, List.mem_map, List.mem_filter,
      Bool.and_eq_true, beq_iff_eq, Prod.mk.injEq]
    constructor
    · rintro ⟨q, hq, u, ⟨hu, ⟨hid, hrole⟩, hstatus⟩, rfl, rfl⟩
      exact ⟨u, hu, hq, hid, hrole, hstatus, rfl⟩
    · rintro ⟨u, hu, hp, hid, hrole, hstatus, rfl⟩
      exact ⟨p, hp, u, ⟨hu, ⟨hid, hrole⟩, hstatus⟩, rfl, rfl⟩
  · rw [listPublic]
    refine List.Pairwise.imp ?_
      (List.sorted_mergeSort ?_ ?_ (joinApproved st))
    · intro a b h
      simpa using h
    · intro a b c hab hbc
      simp only [decide_eq_true_eq] at hab hbc ⊢
      omega
    · intro a b
      simp only [Bool.or_eq_true, decide_eq_true_eq]
      omega

/-- Witness for C2: a product of an approved farmer shows up in the public
listing joined with the farmer's name. -/
theorem listPublic_spec_witness :
    ((⟨5, 1, "Eggs", 5, 2, none, none, 3⟩ : Product), "Ann") ∈
      listPublic ⟨[⟨1, "Ann", "a@x", "h1", "farmer", "approved", 0⟩],
        [⟨5, 1, "Eggs", 5, 2, none, none, 3⟩]⟩ :=
  ((listPublic_spec ⟨[⟨1, "Ann", "a@x", "h1", "farmer", "approved", 0⟩],
      [⟨5, 1, "Eggs", 5, 2, none, none, 3⟩]⟩).1
    ⟨5, 1, "Eggs", 5, 2, none, none, 3⟩ "Ann").mpr
    ⟨⟨1, "Ann", "a@x", "h1", "farmer", "approved", 0⟩,
     List.mem_singleton.mpr rfl, List.mem_singleton.mpr rfl, rfl, rfl, rfl, rfl⟩

end TemoConnect
